import Mathlib

/-!
Verification development for the key-binding core of grv
(src/cmd/grv/key_bindings.go).

The Go code is shallowly embedded: Go maps become association lists,
the external patricia trie (an external dependency used only through
exact lookup, prefix-subtree test, insert and delete) becomes an
association list from key strings to bindings with those four
operations, and each method of KeyBindingManager becomes a Lean
function on an explicit state record.
-/

namespace Grv

/-- Modelled from the spec: the ViewID enumeration is defined outside
key_bindings.go.  It is an opaque enumerable scope identifier with one
reserved catch-all value `ViewAll`; we model it as `Nat` with the
catch-all at 0. -/
abbrev ViewID : Type := Nat

/-- Modelled from the spec: the reserved catch-all scope appended to
every view hierarchy during lookup. -/
def ViewAll : ViewID := 0

/-- ViewHierarchy is a list of views parent to child
(key_bindings.go line 596). -/
abbrev ViewHierarchy : Type := List ViewID

/-- ActionType represents an action to be performed
(key_bindings.go lines 25-88). -/
inductive ActionType where
  | ActionNone
  | ActionExit
  | ActionSuspend
  | ActionRunCommand
  | ActionPrompt
  | ActionSearchPrompt
  | ActionReverseSearchPrompt
  | ActionFilterPrompt
  | ActionQuestionPrompt
  | ActionBranchNamePrompt
  | ActionSearch
  | ActionReverseSearch
  | ActionSearchFindNext
  | ActionSearchFindPrev
  | ActionClearSearch
  | ActionShowStatus
  | ActionNextLine
  | ActionPrevLine
  | ActionNextPage
  | ActionPrevPage
  | ActionNextHalfPage
  | ActionPrevHalfPage
  | ActionScrollRight
  | ActionScrollLeft
  | ActionFirstLine
  | ActionLastLine
  | ActionSelect
  | ActionNextView
  | ActionPrevView
  | ActionFullScreenView
  | ActionToggleViewLayout
  | ActionNextTab
  | ActionPrevTab
  | ActionRemoveView
  | ActionAddFilter
  | ActionRemoveFilter
  | ActionCenterView
  | ActionScrollCursorTop
  | ActionScrollCursorBottom
  | ActionCursorTopView
  | ActionCursorMiddleView
  | ActionCursorBottomView
  | ActionNewTab
  | ActionRemoveTab
  | ActionAddView
  | ActionSplitView
  | ActionMouseSelect
  | ActionMouseScrollDown
  | ActionMouseScrollUp
  | ActionCheckoutRef
  | ActionCheckoutCommit
  | ActionCreateBranch
  | ActionCreateContextMenu
  | ActionCreateCommandOutputView
  | ActionShowAvailableActions
  | ActionStageFile
  | ActionUnstageFile
  | ActionCommit
  | ActionShowHelpView
  deriving DecidableEq, Repr

export ActionType (ActionNone)

/-- BindingType specifies the type a key sequence is bound to
(key_bindings.go lines 599-605). -/
inductive BindingType where
  | BtAction
  | BtKeystring
  deriving DecidableEq, Repr

/-- Binding is the entity a key sequence is bound to: either an action
or a key sequence (key_bindings.go lines 607-613). -/
structure Binding where
  bindingType : BindingType
  actionType : ActionType
  keystring : String
  deriving DecidableEq, Repr

/-- newActionBinding (key_bindings.go lines 615-620).  The Go struct
literal leaves `keystring` at its zero value, the empty string. -/
def newActionBinding (actionType : ActionType) : Binding :=
  { bindingType := BindingType.BtAction
    actionType := actionType
    keystring := "" }

/-- newKeystringBinding (key_bindings.go lines 622-628). -/
def newKeystringBinding (keystring : String) : Binding :=
  { bindingType := BindingType.BtKeystring
    keystring := keystring
    actionType := ActionNone }

/-- BoundKeyString is a keystring bound to an action
(key_bindings.go lines 640-644). -/
structure BoundKeyString where
  keystring : String
  userDefinedBinding : Bool
  deriving DecidableEq, Repr

/-- Association-list lookup, modelling a Go map read `m[k]` together
with its `ok` flag (`none` is absent). -/
def alookup {α β : Type} [DecidableEq α] : List (α × β) → α → Option β
  | [], _ => none
  | (k, v) :: rest, key => if k = key then some v else alookup rest key

/-- Association-list update, modelling a Go map write `m[k] = v`:
overwrite the entry if the key is present, append otherwise. -/
def mapInsert {α β : Type} [DecidableEq α] : List (α × β) → α → β → List (α × β)
  | [], key, val => [(key, val)]
  | (k, v) :: rest, key, val =>
      if k = key then (key, val) :: rest else (k, v) :: mapInsert rest key val

/-- listStartsWith pre l is true when l begins with pre, modelling the
byte-level prefix test used both by strings.HasPrefix and by the
patricia trie on key strings. -/
def listStartsWith : List Char → List Char → Bool
  | [], _ => true
  | _ :: _, [] => false
  | a :: as, b :: bs => a = b && listStartsWith as bs

/-- strStartsWith pre s is true when the string s begins with pre
(Go strings.HasPrefix(s, pre)). -/
def strStartsWith (pre s : String) : Bool :=
  listStartsWith pre.data s.data

/-- The per-scope binding store.  The Go code uses an external patricia
trie (pt.Trie) through exactly four operations: Set, Get,
MatchSubtree and Delete; we model it as an association list from key
strings to bindings with those operations. -/
abbrev Trie : Type := List (String × Binding)

/-- trieGet models pt.Trie.Get: exact-match lookup, nil (none) when the
key was never inserted. -/
def trieGet : Trie → String → Option Binding
  | [], _ => none
  | (k, b) :: rest, key => if k = key then some b else trieGet rest key

/-- trieSet models pt.Trie.Set: insert or overwrite the item at a key. -/
def trieSet : Trie → String → Binding → Trie
  | [], key, b => [(key, b)]
  | (k0, b0) :: rest, key, b =>
      if k0 = key then (key, b) :: rest else (k0, b0) :: trieSet rest key b

/-- trieMatchSubtree models pt.Trie.MatchSubtree: true when some
inserted key has the argument as a (not necessarily strict) prefix,
i.e. more keystrokes could reach some stored item. -/
def trieMatchSubtree (t : Trie) (key : String) : Bool :=
  t.any fun p => strStartsWith key p.1

/-- trieDelete models pt.Trie.Delete: remove the item stored at exactly
this key, reporting whether anything was removed. -/
def trieDelete (t : Trie) (key : String) : Bool × Trie :=
  if (t.any fun p => p.1 = key) then
    (true, t.filter fun p => ¬ p.1 = key)
  else
    (false, t)

/-- actionKeys maps each canonical action identifier string to its
action, built by init() from the actionKey fields of actionDescriptors
(key_bindings.go lines 520-528 and the descriptor table). -/
def actionKeys : List (String × ActionType) :=
  [ ("<grv-exit>", ActionType.ActionExit)
  , ("<grv-suspend>", ActionType.ActionSuspend)
  , ("<grv-prompt>", ActionType.ActionPrompt)
  , ("<grv-search-prompt>", ActionType.ActionSearchPrompt)
  , ("<grv-reverse-search-prompt>", ActionType.ActionReverseSearchPrompt)
  , ("<grv-filter-prompt>", ActionType.ActionFilterPrompt)
  , ("<grv-branch-name-prompt>", ActionType.ActionBranchNamePrompt)
  , ("<grv-search-find-next>", ActionType.ActionSearchFindNext)
  , ("<grv-search-find-prev>", ActionType.ActionSearchFindPrev)
  , ("<grv-clear-search>", ActionType.ActionClearSearch)
  , ("<grv-next-line>", ActionType.ActionNextLine)
  , ("<grv-prev-line>", ActionType.ActionPrevLine)
  , ("<grv-next-page>", ActionType.ActionNextPage)
  , ("<grv-prev-page>", ActionType.ActionPrevPage)
  , ("<grv-next-half-page>", ActionType.ActionNextHalfPage)
  , ("<grv-prev-half-page>", ActionType.ActionPrevHalfPage)
  , ("<grv-scroll-right>", ActionType.ActionScrollRight)
  , ("<grv-scroll-left>", ActionType.ActionScrollLeft)
  , ("<grv-first-line>", ActionType.ActionFirstLine)
  , ("<grv-last-line>", ActionType.ActionLastLine)
  , ("<grv-select>", ActionType.ActionSelect)
  , ("<grv-next-view>", ActionType.ActionNextView)
  , ("<grv-prev-view>", ActionType.ActionPrevView)
  , ("<grv-full-screen-view>", ActionType.ActionFullScreenView)
  , ("<grv-toggle-view-layout>", ActionType.ActionToggleViewLayout)
  , ("<grv-next-tab>", ActionType.ActionNextTab)
  , ("<grv-prev-tab>", ActionType.ActionPrevTab)
  , ("<grv-remove-view>", ActionType.ActionRemoveView)
  , ("<grv-remove-filter>", ActionType.ActionRemoveFilter)
  , ("<grv-center-view>", ActionType.ActionCenterView)
  , ("<grv-scroll-cursor-top>", ActionType.ActionScrollCursorTop)
  , ("<grv-scroll-cursor-bottom>", ActionType.ActionScrollCursorBottom)
  , ("<grv-cursor-top-view>", ActionType.ActionCursorTopView)
  , ("<grv-cursor-middle-view>", ActionType.ActionCursorMiddleView)
  , ("<grv-cursor-bottom-view>", ActionType.ActionCursorBottomView)
  , ("<grv-checkout-ref>", ActionType.ActionCheckoutRef)
  , ("<grv-checkout-commit>", ActionType.ActionCheckoutCommit)
  , ("<grv-show-available-actions>", ActionType.ActionShowAvailableActions)
  , ("<grv-stage-file>", ActionType.ActionStageFile)
  , ("<grv-unstage-file>", ActionType.ActionUnstageFile)
  , ("<grv-action-commit>", ActionType.ActionCommit)
  , ("<grv-show-help>", ActionType.ActionShowHelpView) ]

/-- KeyBindingManager manages key bindings in grv
(key_bindings.go lines 646-651). -/
structure KeyBindingManager where
  bindings : List (ViewID × Trie)
  helpFormat : List (ActionType × List (ViewID × List BoundKeyString))
  userDefinedBinding : Bool

/-- The scope loop of KeyBindingManager.Binding
(key_bindings.go lines 672-680): scan scopes in order, returning the
first exact match immediately, else accumulating the prefix flag. -/
def resolveLoop (bindings : List (ViewID × Trie)) (keystring : String) :
    List ViewID → Bool → Binding × Bool
  | [], isPfx => (newActionBinding ActionNone, isPfx)
  | viewID :: rest, isPfx =>
      match alookup bindings viewID with
      | some viewBindings =>
          match trieGet viewBindings keystring with
          | some b => (b, false)
          | none =>
              resolveLoop bindings keystring rest
                (isPfx || trieMatchSubtree viewBindings keystring)
      | none => resolveLoop bindings keystring rest isPfx

/-- Binding returns the Binding bound to the provided key sequence for
the view hierarchy provided, appending the catch-all scope
(key_bindings.go lines 668-683). -/
def KeyBindingManager.binding (m : KeyBindingManager)
    (viewHierarchy : ViewHierarchy) (keystring : String) : Binding × Bool :=
  resolveLoop m.bindings keystring (viewHierarchy ++ [ViewAll]) false

/-- getOrCreateViewBindings (key_bindings.go lines 704-713): the
existing trie for the view, or a fresh empty one. -/
def KeyBindingManager.getOrCreateViewBindings (m : KeyBindingManager)
    (viewID : ViewID) : Trie :=
  (alookup m.bindings viewID).getD []

/-- updateHelpFormat (key_bindings.go lines 715-735): append a help
entry tagged with the current user-defined flag, unless the key
sequence is in the reserved internal-identifier namespace. -/
def KeyBindingManager.updateHelpFormat (m : KeyBindingManager)
    (actionType : ActionType) (viewID : ViewID) (keystring : String) :
    KeyBindingManager :=
  if strStartsWith "<grv-" keystring then m
  else
    let viewBindings := (alookup m.helpFormat actionType).getD []
    let keystrings := (alookup viewBindings viewID).getD []
    { m with
      helpFormat :=
        mapInsert m.helpFormat actionType
          (mapInsert viewBindings viewID
            (keystrings ++
              [{ keystring := keystring
                 userDefinedBinding := m.userDefinedBinding }])) }

/-- SetActionBinding (key_bindings.go lines 686-690). -/
def KeyBindingManager.setActionBinding (m : KeyBindingManager)
    (viewID : ViewID) (keystring : String) (actionType : ActionType) :
    KeyBindingManager :=
  let viewBindings := m.getOrCreateViewBindings viewID
  let m :=
    { m with
      bindings :=
        mapInsert m.bindings viewID
          (trieSet viewBindings keystring (newActionBinding actionType)) }
  m.updateHelpFormat actionType viewID keystring

/-- The action whose help bucket removeHelpFormatEntry prunes
(key_bindings.go lines 753-761): the Go local `actionType` starts at
its zero value ActionNone and is only assigned in the two branches
shown. -/
def removedEntryActionType (binding : Binding) : ActionType :=
  match binding.bindingType with
  | BindingType.BtAction => binding.actionType
  | BindingType.BtKeystring =>
      match alookup actionKeys binding.keystring with
      | some mappedActionType => mappedActionType
      | none => ActionNone

/-- removeHelpFormatEntry (key_bindings.go lines 752-782): prune every
entry with this key sequence from the help bucket of the action the
removed binding stood for. -/
def KeyBindingManager.removeHelpFormatEntry (m : KeyBindingManager)
    (binding : Binding) (viewID : ViewID) (keystring : String) :
    KeyBindingManager :=
  let actionType := removedEntryActionType binding
  match alookup m.helpFormat actionType with
  | none => m
  | some viewBindings =>
      match alookup viewBindings viewID with
      | none => m
      | some keystrings =>
          let updatedKeystrings :=
            keystrings.filter fun key => ¬ key.keystring = keystring
          { m with
            helpFormat :=
              mapInsert m.helpFormat actionType
                (mapInsert viewBindings viewID updatedKeystrings) }

/-- RemoveBinding (key_bindings.go lines 738-750): look up the current
binding through the single-scope hierarchy, delete from the index, and
prune the help entry when the lookup found a real binding. -/
def KeyBindingManager.removeBinding (m : KeyBindingManager)
    (viewID : ViewID) (keystring : String) : KeyBindingManager × Bool :=
  let b := (m.binding [viewID] keystring).1
  let dr :=
    match alookup m.bindings viewID with
    | some viewBindings =>
        let d := trieDelete viewBindings keystring
        (d.1, { m with bindings := mapInsert m.bindings viewID d.2 })
    | none => (false, m)
  let m2 :=
    if ¬ b.actionType = ActionNone ∨ ¬ b.keystring = "" then
      dr.2.removeHelpFormatEntry b viewID keystring
    else dr.2
  (m2, dr.1)

/-- SetKeystringBinding (key_bindings.go lines 693-702): unbind first,
install the remap, and credit the help entry to the action the target
resolves to, when it is a canonical action identifier. -/
def KeyBindingManager.setKeystringBinding (m : KeyBindingManager)
    (viewID : ViewID) (keystring mappedKeystring : String) :
    KeyBindingManager :=
  let m := (m.removeBinding viewID keystring).1
  let viewBindings := m.getOrCreateViewBindings viewID
  let m :=
    { m with
      bindings :=
        mapInsert m.bindings viewID
          (trieSet viewBindings keystring
            (newKeystringBinding mappedKeystring)) }
  match alookup actionKeys mappedKeystring with
  | some actionType => m.updateHelpFormat actionType viewID keystring
  | none => m

/-- KeyStrings (key_bindings.go lines 785-793): the help bucket for an
action and view, empty when absent. -/
def KeyBindingManager.keyStrings (m : KeyBindingManager)
    (actionType : ActionType) (viewID : ViewID) : List BoundKeyString :=
  match alookup m.helpFormat actionType with
  | none => []
  | some viewBindings => (alookup viewBindings viewID).getD []

/-- The zero-value manager built first by NewKeyBindingManager
(key_bindings.go lines 655-658): empty maps and a false user-defined
flag (the Go zero value of the field). -/
def emptyKeyBindingManager : KeyBindingManager :=
  { bindings := []
    helpFormat := []
    userDefinedBinding := false }

/-- setDefaultKeyBindings (key_bindings.go lines 795-807) iterates the
actionKeys and actionDescriptors Go maps, whose iteration order is
unspecified, calling SetActionBinding for each derived triple; we take
the iteration as an explicit list of (view, key sequence, action)
triples. -/
def setDefaultKeyBindings (m : KeyBindingManager)
    (defaults : List (ViewID × String × ActionType)) : KeyBindingManager :=
  defaults.foldl
    (fun m d => m.setActionBinding d.1 d.2.1 d.2.2) m

/-- NewKeyBindingManager (key_bindings.go lines 654-664): install the
default bindings, then flip the user-defined flag to true. -/
def newKeyBindingManager
    (defaults : List (ViewID × String × ActionType)) : KeyBindingManager :=
  let m := setDefaultKeyBindings emptyKeyBindingManager defaults
  { m with userDefinedBinding := true }

/-- scopeExact is the exact-match lookup of one scope as performed
inside the resolver loop: the stored binding for the key sequence in
that scope's index, if any. -/
def scopeExact (m : KeyBindingManager) (viewID : ViewID)
    (keystring : String) : Option Binding :=
  match alookup m.bindings viewID with
  | some viewBindings => trieGet viewBindings keystring
  | none => none

/-- firstExactBinding, following the spec's words: the binding of the
earliest scope in the list holding an exact entry for the key
sequence, if any. -/
def firstExactBinding (m : KeyBindingManager) :
    List ViewID → String → Option Binding
  | [], _ => none
  | viewID :: rest, keystring =>
      match scopeExact m viewID keystring with
      | some b => some b
      | none => firstExactBinding m rest keystring

/-- scopeStrictPending, following the spec's words: some sequence
stored in this scope's index has the key sequence as a strict prefix. -/
def scopeStrictPending (m : KeyBindingManager) (viewID : ViewID)
    (keystring : String) : Bool :=
  ((alookup m.bindings viewID).getD []).any fun p =>
    strStartsWith keystring p.1 && ¬ p.1 = keystring

/-- helpEntries: every BoundKeyString stored anywhere in the help
registry, an observer used to state help-bookkeeping invariants. -/
def helpEntries (m : KeyBindingManager) : List BoundKeyString :=
  m.helpFormat.flatMap fun p => p.2.flatMap fun q => q.2

/-- newEntriesUserDefined old new is true when every help entry of the
new state was either already present in the old state or carries the
user-defined flag. -/
def newEntriesUserDefined (old new : KeyBindingManager) : Bool :=
  (helpEntries new).all fun e =>
    (helpEntries old).contains e || e.userDefinedBinding

/-- A state used to exercise RemoveBinding on an unbound pair: bind
then overwrite (leaving a stale help row for ActionExit at scope 1),
unbind at scope 1, then bind the same sequence in the catch-all
scope. -/
def overwriteThenRebindState : KeyBindingManager :=
  ((((emptyKeyBindingManager.setActionBinding 1 "k" ActionType.ActionExit).setActionBinding
    1 "k" ActionType.ActionSuspend).removeBinding 1 "k").1.setActionBinding
    ViewAll "k" ActionType.ActionExit)

/-! ### Association-list and trie lemmas -/

theorem alookup_mapInsert_self {α β : Type} [DecidableEq α]
    (l : List (α × β)) (k : α) (v : β) :
    alookup (mapInsert l k v) k = some v := by
  induction l with
  | nil => simp [mapInsert, alookup]
  | cons p rest ih =>
      obtain ⟨k0, v0⟩ := p
      by_cases h : k0 = k
      · simp [mapInsert, h, alookup]
      · simp [mapInsert, h, alookup, ih]

theorem alookup_mapInsert_ne {α β : Type} [DecidableEq α]
    (l : List (α × β)) (k k' : α) (v : β) (h : k' ≠ k) :
    alookup (mapInsert l k v) k' = alookup l k' := by
  induction l with
  | nil => simp [mapInsert, alookup, Ne.symm h]
  | cons p rest ih =>
      obtain ⟨k0, v0⟩ := p
      by_cases h0 : k0 = k
      · subst h0
        simp [mapInsert, alookup, Ne.symm h, ih]
      · simp [mapInsert, h0, alookup, ih]

theorem mem_mapInsert {α β : Type} [DecidableEq α]
    {l : List (α × β)} {k : α} {v : β} {p : α × β}
    (h : p ∈ mapInsert l k v) : p ∈ l ∨ p = (k, v) := by
  induction l with
  | nil => simp [mapInsert] at h; simp [h]
  | cons q rest ih =>
      obtain ⟨k0, v0⟩ := q
      by_cases h0 : k0 = k
      · simp [mapInsert, h0] at h
        rcases h with h | h
        · right; simp [h]
        · left; simp [h]
      · simp [mapInsert, h0] at h
        rcases h with h | h
        · left; simp [h]
        · rcases ih h with h1 | h1
          · left; simp [h1]
          · right; exact h1

theorem mem_of_alookup {α β : Type} [DecidableEq α]
    {l : List (α × β)} {k : α} {v : β}
    (h : alookup l k = some v) : (k, v) ∈ l := by
  induction l with
  | nil => simp [alookup] at h
  | cons q rest ih =>
      obtain ⟨k0, v0⟩ := q
      by_cases h0 : k0 = k
      · subst h0
        simp [alookup] at h
        simp [h]
      · simp [alookup, h0] at h
        simp [ih h]

theorem mapInsert_alookup_self {α β : Type} [DecidableEq α]
    {l : List (α × β)} {k : α} {v : β}
    (h : alookup l k = some v) : mapInsert l k v = l := by
  induction l with
  | nil => simp [alookup] at h
  | cons q rest ih =>
      obtain ⟨k0, v0⟩ := q
      by_cases h0 : k0 = k
      · subst h0
        simp [alookup] at h
        simp [mapInsert, h]
      · simp [alookup, h0] at h
        simp [mapInsert, h0, ih h]

theorem trieGet_eq_none_iff (t : Trie) (key : String) :
    trieGet t key = none ↔ (t.any fun p => p.1 = key) = false := by
  induction t with
  | nil => simp [trieGet]
  | cons p rest ih =>
      obtain ⟨k0, b0⟩ := p
      by_cases h0 : k0 = key
      · simp [trieGet, h0]
      · simp [trieGet, h0, ih]

theorem trieGet_trieSet_self (t : Trie) (key : String) (b : Binding) :
    trieGet (trieSet t key b) key = some b := by
  induction t with
  | nil => simp [trieSet, trieGet]
  | cons p rest ih =>
      obtain ⟨k0, b0⟩ := p
      by_cases h0 : k0 = key
      · simp [trieSet, h0, trieGet]
      · simp [trieSet, h0, trieGet, ih]

theorem trieGet_trieSet_ne (t : Trie) (key key' : String) (b : Binding)
    (h : key' ≠ key) :
    trieGet (trieSet t key b) key' = trieGet t key' := by
  induction t with
  | nil => simp [trieSet, trieGet, Ne.symm h]
  | cons p rest ih =>
      obtain ⟨k0, b0⟩ := p
      by_cases h0 : k0 = key
      · subst h0
        simp [trieSet, trieGet, Ne.symm h, ih]
      · simp [trieSet, h0, trieGet, ih]

theorem trieDelete_not_found (t : Trie) (key : String)
    (h : trieGet t key = none) : trieDelete t key = (false, t) := by
  have hany := (trieGet_eq_none_iff t key).mp h
  simp [trieDelete, hany]

/-! ### Resolver lemmas -/

theorem trieMatchSubtree_of_no_exact (t : Trie) (key : String)
    (h : trieGet t key = none) :
    trieMatchSubtree t key =
      (t.any fun p => strStartsWith key p.1 && ¬ p.1 = key) := by
  induction t with
  | nil => simp [trieMatchSubtree]
  | cons p rest ih =>
      obtain ⟨k0, b0⟩ := p
      by_cases h0 : k0 = key
      · simp [trieGet, h0] at h
      · simp [trieGet, h0] at h
        simp [trieMatchSubtree, List.any_cons, h0] at ih ⊢
        rw [ih h]

theorem resolveLoop_first_exact (m : KeyBindingManager) (key : String) :
    ∀ (vs : List ViewID) (b : Binding),
      firstExactBinding m vs key = some b →
      ∀ isPfx, resolveLoop m.bindings key vs isPfx = (b, false) := by
  intro vs
  induction vs with
  | nil => intro b h; simp [firstExactBinding] at h
  | cons v rest ih =>
      intro b h isPfx
      cases hse : scopeExact m v key with
      | some b0 =>
          rw [firstExactBinding, hse] at h
          cases h
          unfold scopeExact at hse
          cases halo : alookup m.bindings v with
          | none => rw [halo] at hse; cases hse
          | some t =>
              rw [halo] at hse
              have hget : trieGet t key = some b := hse
              simp [resolveLoop, halo, hget]
      | none =>
          rw [firstExactBinding, hse] at h
          unfold scopeExact at hse
          cases halo : alookup m.bindings v with
          | none => simp [resolveLoop, halo, ih b h]
          | some t =>
              rw [halo] at hse
              have hget : trieGet t key = none := hse
              simp [resolveLoop, halo, hget, ih b h]

theorem resolveLoop_no_exact (m : KeyBindingManager) (key : String) :
    ∀ (vs : List ViewID),
      firstExactBinding m vs key = none →
      ∀ isPfx, resolveLoop m.bindings key vs isPfx =
        (newActionBinding ActionNone,
          isPfx || vs.any fun v => scopeStrictPending m v key) := by
  intro vs
  induction vs with
  | nil => intro h isPfx; simp [resolveLoop]
  | cons v rest ih =>
      intro h isPfx
      cases hse : scopeExact m v key with
      | some b0 => rw [firstExactBinding, hse] at h; cases h
      | none =>
          rw [firstExactBinding, hse] at h
          unfold scopeExact at hse
          cases halo : alookup m.bindings v with
          | none =>
              have hsp : scopeStrictPending m v key = false := by
                unfold scopeStrictPending
                rw [halo]
                simp
              simp [resolveLoop, halo, ih h, List.any_cons, hsp]
          | some t =>
              rw [halo] at hse
              have hget : trieGet t key = none := hse
              have hsp : scopeStrictPending m v key = trieMatchSubtree t key := by
                unfold scopeStrictPending
                rw [halo]
                simp [trieMatchSubtree_of_no_exact t key hget]
              simp [resolveLoop, halo, hget, ih h, List.any_cons, hsp,
                Bool.or_assoc]

/-! ### Field-preservation lemmas -/

theorem updateHelpFormat_bindings (m : KeyBindingManager)
    (a : ActionType) (v : ViewID) (k : String) :
    (m.updateHelpFormat a v k).bindings = m.bindings := by
  unfold KeyBindingManager.updateHelpFormat
  split <;> rfl

theorem updateHelpFormat_flag (m : KeyBindingManager)
    (a : ActionType) (v : ViewID) (k : String) :
    (m.updateHelpFormat a v k).userDefinedBinding = m.userDefinedBinding := by
  unfold KeyBindingManager.updateHelpFormat
  split <;> rfl

theorem updateHelpFormat_grv (m : KeyBindingManager)
    (a : ActionType) (v : ViewID) (k : String)
    (h : strStartsWith "<grv-" k = true) :
    m.updateHelpFormat a v k = m := by
  unfold KeyBindingManager.updateHelpFormat
  rw [if_pos h]

theorem removeHelpFormatEntry_bindings (m : KeyBindingManager)
    (b : Binding) (v : ViewID) (k : String) :
    (m.removeHelpFormatEntry b v k).bindings = m.bindings := by
  unfold KeyBindingManager.removeHelpFormatEntry
  dsimp only
  split
  · rfl
  · split <;> rfl

theorem removeHelpFormatEntry_flag (m : KeyBindingManager)
    (b : Binding) (v : ViewID) (k : String) :
    (m.removeHelpFormatEntry b v k).userDefinedBinding =
      m.userDefinedBinding := by
  unfold KeyBindingManager.removeHelpFormatEntry
  dsimp only
  split
  · rfl
  · split <;> rfl

theorem removeBinding_flag (m : KeyBindingManager)
    (v : ViewID) (k : String) :
    (m.removeBinding v k).1.userDefinedBinding = m.userDefinedBinding := by
  unfold KeyBindingManager.removeBinding
  dsimp only
  split
  · rw [removeHelpFormatEntry_flag]
    split <;> rfl
  · split <;> rfl

theorem setActionBinding_flag (m : KeyBindingManager)
    (v : ViewID) (k : String) (a : ActionType) :
    (m.setActionBinding v k a).userDefinedBinding = m.userDefinedBinding := by
  unfold KeyBindingManager.setActionBinding
  dsimp only
  rw [updateHelpFormat_flag]

/-! ### Operation-level lemmas -/

theorem binding_setActionBinding (m : KeyBindingManager)
    (v : ViewID) (k : String) (a : ActionType) :
    (m.setActionBinding v k a).binding [v] k = (newActionBinding a, false) := by
  unfold KeyBindingManager.setActionBinding KeyBindingManager.binding
  dsimp only
  rw [updateHelpFormat_bindings]
  dsimp only
  simp [resolveLoop, alookup_mapInsert_self, trieGet_trieSet_self]

theorem binding_setKeystringBinding (m : KeyBindingManager)
    (v : ViewID) (k mk : String) :
    (m.setKeystringBinding v k mk).binding [v] k =
      (newKeystringBinding mk, false) := by
  unfold KeyBindingManager.setKeystringBinding
  dsimp only
  split
  · unfold KeyBindingManager.binding
    rw [updateHelpFormat_bindings]
    dsimp only
    simp [resolveLoop, alookup_mapInsert_self, trieGet_trieSet_self]
  · unfold KeyBindingManager.binding
    dsimp only
    simp [resolveLoop, alookup_mapInsert_self, trieGet_trieSet_self]

theorem keyStrings_updateHelpFormat_self (m : KeyBindingManager)
    (a : ActionType) (v : ViewID) (k : String)
    (h : strStartsWith "<grv-" k = false) :
    (m.updateHelpFormat a v k).keyStrings a v =
      m.keyStrings a v ++
        [{ keystring := k, userDefinedBinding := m.userDefinedBinding }] := by
  unfold KeyBindingManager.updateHelpFormat
  rw [if_neg (by simp [h])]
  dsimp only
  unfold KeyBindingManager.keyStrings
  dsimp only
  simp only [alookup_mapInsert_self]
  cases hfa : alookup m.helpFormat a with
  | none => simp [hfa, alookup]
  | some vb0 => simp [hfa]

theorem keyStrings_updateHelpFormat_ne_action (m : KeyBindingManager)
    (a : ActionType) (v : ViewID) (k : String) (a' : ActionType) (v' : ViewID)
    (h : ¬ a' = a) :
    (m.updateHelpFormat a v k).keyStrings a' v' = m.keyStrings a' v' := by
  unfold KeyBindingManager.updateHelpFormat
  split
  · rfl
  · unfold KeyBindingManager.keyStrings
    dsimp only
    rw [alookup_mapInsert_ne _ _ _ _ h]

theorem removeHelpFormatEntry_prunes (m : KeyBindingManager)
    (a : ActionType) (v : ViewID) (k : String) :
    ((m.removeHelpFormatEntry (newActionBinding a) v k).keyStrings a v).all
      (fun e => ¬ e.keystring = k) = true := by
  unfold KeyBindingManager.removeHelpFormatEntry
  dsimp only
  have hat : removedEntryActionType (newActionBinding a) = a := rfl
  rw [hat]
  cases h1 : alookup m.helpFormat a with
  | none => simp [KeyBindingManager.keyStrings, h1]
  | some vb =>
      dsimp only
      cases h2 : alookup vb v with
      | none => simp [KeyBindingManager.keyStrings, h1, h2]
      | some ks =>
          simp only [KeyBindingManager.keyStrings, alookup_mapInsert_self,
            Option.getD_some]
          rw [List.all_eq_true]
          intro e he
          have hmem := List.mem_filter.mp he
          simpa using hmem.2

theorem removeBinding_unbound_noop (m : KeyBindingManager)
    (v : ViewID) (k : String)
    (h1 : scopeExact m v k = none) (h2 : scopeExact m ViewAll k = none) :
    m.removeBinding v k = (m, false) := by
  have hfe : firstExactBinding m ([v] ++ [ViewAll]) k = none := by
    simp [firstExactBinding, h1, h2]
  have hb : m.binding [v] k =
      (newActionBinding ActionNone,
        false || ([v] ++ [ViewAll]).any fun v0 => scopeStrictPending m v0 k) :=
    resolveLoop_no_exact m k ([v] ++ [ViewAll]) hfe false
  unfold KeyBindingManager.removeBinding
  dsimp only
  rw [hb]
  dsimp only
  rw [if_neg (by simp [newActionBinding])]
  cases halo : alookup m.bindings v with
  | none => simp [halo]
  | some t =>
      have hget : trieGet t k = none := by
        unfold scopeExact at h1
        rw [halo] at h1
        exact h1
      have hdel := trieDelete_not_found t k hget
      simp [halo, hdel, mapInsert_alookup_self halo]

/-! ### Help-registry membership lemmas -/

theorem mem_entries2_mapInsert
    {hf : List (ActionType × List (ViewID × List BoundKeyString))}
    {a : ActionType} {X : List (ViewID × List BoundKeyString)}
    {e : BoundKeyString}
    (h : e ∈ (mapInsert hf a X).flatMap fun p => p.2.flatMap fun q => q.2) :
    (e ∈ hf.flatMap fun p => p.2.flatMap fun q => q.2) ∨
      e ∈ X.flatMap fun q => q.2 := by
  simp only [List.mem_flatMap] at h ⊢
  obtain ⟨p, hp, he⟩ := h
  rcases mem_mapInsert hp with h1 | h1
  · left
    exact ⟨p, h1, he⟩
  · subst h1
    right
    exact he

theorem mem_entries1_mapInsert
    {vb : List (ViewID × List BoundKeyString)}
    {v : ViewID} {Y : List BoundKeyString} {e : BoundKeyString}
    (h : e ∈ (mapInsert vb v Y).flatMap fun q => q.2) :
    (e ∈ vb.flatMap fun q => q.2) ∨ e ∈ Y := by
  simp only [List.mem_flatMap] at h ⊢
  obtain ⟨q, hq, he⟩ := h
  rcases mem_mapInsert hq with h1 | h1
  · left
    exact ⟨q, h1, he⟩
  · subst h1
    right
    exact he

theorem mem_entries2_of_alookup
    {hf : List (ActionType × List (ViewID × List BoundKeyString))}
    {a : ActionType} {vb : List (ViewID × List BoundKeyString)}
    {e : BoundKeyString}
    (ha : alookup hf a = some vb) (h : e ∈ vb.flatMap fun q => q.2) :
    e ∈ hf.flatMap fun p => p.2.flatMap fun q => q.2 := by
  simp only [List.mem_flatMap] at h ⊢
  obtain ⟨q, hq, he⟩ := h
  exact ⟨(a, vb), mem_of_alookup ha, q, hq, he⟩

theorem mem_entries1_of_alookup
    {vb : List (ViewID × List BoundKeyString)}
    {v : ViewID} {ks : List BoundKeyString} {e : BoundKeyString}
    (ha : alookup vb v = some ks) (h : e ∈ ks) :
    e ∈ vb.flatMap fun q => q.2 := by
  simp only [List.mem_flatMap]
  exact ⟨(v, ks), mem_of_alookup ha, h⟩

theorem mem_helpEntries_updateHelpFormat {m : KeyBindingManager}
    {a : ActionType} {v : ViewID} {k : String} {e : BoundKeyString}
    (h : e ∈ helpEntries (m.updateHelpFormat a v k)) :
    e ∈ helpEntries m ∨
      e = { keystring := k, userDefinedBinding := m.userDefinedBinding } := by
  unfold KeyBindingManager.updateHelpFormat at h
  split at h
  · exact Or.inl h
  · dsimp only at h
    unfold helpEntries at h ⊢
    rcases mem_entries2_mapInsert h with h1 | h1
    · exact Or.inl h1
    · rcases mem_entries1_mapInsert h1 with h2 | h2
      · cases hfa : alookup m.helpFormat a with
        | none =>
            rw [hfa] at h2
            simp at h2
        | some vb0 =>
            rw [hfa] at h2
            simp only [Option.getD_some] at h2
            exact Or.inl (mem_entries2_of_alookup hfa h2)
      · rcases List.mem_append.mp h2 with h3 | h3
        · cases hfa : alookup m.helpFormat a with
          | none =>
              rw [hfa] at h3
              simp [alookup] at h3
          | some vb0 =>
              rw [hfa] at h3
              simp only [Option.getD_some] at h3
              cases hvv : alookup vb0 v with
              | none =>
                  rw [hvv] at h3
                  simp at h3
              | some ks0 =>
                  rw [hvv] at h3
                  simp only [Option.getD_some] at h3
                  exact Or.inl
                    (mem_entries2_of_alookup hfa
                      (mem_entries1_of_alookup hvv h3))
        · right
          simpa using h3

theorem mem_helpEntries_removeHelpFormatEntry {m : KeyBindingManager}
    {b : Binding} {v : ViewID} {k : String} {e : BoundKeyString}
    (h : e ∈ helpEntries (m.removeHelpFormatEntry b v k)) :
    e ∈ helpEntries m := by
  unfold KeyBindingManager.removeHelpFormatEntry at h
  dsimp only at h
  cases h1 : alookup m.helpFormat (removedEntryActionType b) with
  | none =>
      rw [h1] at h
      exact h
  | some vb =>
      rw [h1] at h
      dsimp only at h
      cases h2 : alookup vb v with
      | none =>
          rw [h2] at h
          exact h
      | some ks =>
          rw [h2] at h
          unfold helpEntries at h ⊢
          rcases mem_entries2_mapInsert h with h3 | h3
          · exact h3
          · rcases mem_entries1_mapInsert h3 with h4 | h4
            · exact mem_entries2_of_alookup h1 h4
            · have h5 := List.mem_filter.mp h4
              exact mem_entries2_of_alookup h1
                (mem_entries1_of_alookup h2 h5.1)

theorem mem_helpEntries_setActionBinding {m : KeyBindingManager}
    {v : ViewID} {k : String} {a : ActionType} {e : BoundKeyString}
    (h : e ∈ helpEntries (m.setActionBinding v k a)) :
    e ∈ helpEntries m ∨
      e = { keystring := k, userDefinedBinding := m.userDefinedBinding } := by
  unfold KeyBindingManager.setActionBinding at h
  dsimp only at h
  rcases mem_helpEntries_updateHelpFormat h with h1 | h1
  · exact Or.inl h1
  · exact Or.inr h1

theorem mem_helpEntries_removeBinding {m : KeyBindingManager}
    {v : ViewID} {k : String} {e : BoundKeyString}
    (h : e ∈ helpEntries (m.removeBinding v k).1) :
    e ∈ helpEntries m := by
  unfold KeyBindingManager.removeBinding at h
  dsimp only at h
  split at h
  · have h2 := mem_helpEntries_removeHelpFormatEntry h
    revert h2
    cases halo : alookup m.bindings v with
    | none => intro h2; exact h2
    | some t => intro h2; exact h2
  · revert h
    cases halo : alookup m.bindings v with
    | none => intro h; exact h
    | some t => intro h; exact h

theorem mem_helpEntries_setKeystringBinding {m : KeyBindingManager}
    {v : ViewID} {k mk : String} {e : BoundKeyString}
    (h : e ∈ helpEntries (m.setKeystringBinding v k mk)) :
    e ∈ helpEntries m ∨
      e = { keystring := k, userDefinedBinding := m.userDefinedBinding } := by
  unfold KeyBindingManager.setKeystringBinding at h
  dsimp only at h
  split at h
  · rcases mem_helpEntries_updateHelpFormat h with h1 | h1
    · exact Or.inl (mem_helpEntries_removeBinding h1)
    · right
      rw [h1]
      rw [removeBinding_flag]
  · exact Or.inl (mem_helpEntries_removeBinding h)

theorem keyStrings_setActionBinding_self (m : KeyBindingManager)
    (v : ViewID) (k : String) (a : ActionType)
    (h : strStartsWith "<grv-" k = false) :
    (m.setActionBinding v k a).keyStrings a v =
      m.keyStrings a v ++
        [{ keystring := k, userDefinedBinding := m.userDefinedBinding }] := by
  unfold KeyBindingManager.setActionBinding
  dsimp only
  exact keyStrings_updateHelpFormat_self _ a v k h

theorem keyStrings_setActionBinding_ne (m : KeyBindingManager)
    (v : ViewID) (k : String) (a : ActionType) (a' : ActionType) (v' : ViewID)
    (h : ¬ a' = a) :
    (m.setActionBinding v k a).keyStrings a' v' = m.keyStrings a' v' := by
  unfold KeyBindingManager.setActionBinding
  dsimp only
  exact keyStrings_updateHelpFormat_ne_action _ a v k a' v' h

theorem setDefaultKeyBindings_inv
    (ds : List (ViewID × String × ActionType)) :
    ∀ (m : KeyBindingManager),
      m.userDefinedBinding = false →
      (∀ e ∈ helpEntries m, e.userDefinedBinding = false) →
      (setDefaultKeyBindings m ds).userDefinedBinding = false ∧
        ∀ e ∈ helpEntries (setDefaultKeyBindings m ds),
          e.userDefinedBinding = false := by
  induction ds with
  | nil => intro m h1 h2; exact ⟨h1, h2⟩
  | cons d rest ih =>
      intro m h1 h2
      have hstep1 :
          (m.setActionBinding d.1 d.2.1 d.2.2).userDefinedBinding = false := by
        rw [setActionBinding_flag]
        exact h1
      have hstep2 :
          ∀ e ∈ helpEntries (m.setActionBinding d.1 d.2.1 d.2.2),
            e.userDefinedBinding = false := by
        intro e he
        rcases mem_helpEntries_setActionBinding he with h3 | h3
        · exact h2 e h3
        · rw [h3]
          exact h1
      exact ih (m.setActionBinding d.1 d.2.1 d.2.2) hstep1 hstep2

/-! ### Claim theorems -/

/-- C1: for every scope S, key sequence K and action A, after
BindAction(S, K, A) — regardless of any binding previously installed at
(S, K), which is silently overwritten — Resolve([S], K) returns
(Action(A), pending = false). -/
theorem claimC1_bind_action_then_resolve (m : KeyBindingManager)
    (s : ViewID) (k : String) (a : ActionType) :
    (m.setActionBinding s k a).binding [s] k = (newActionBinding a, false) :=
  binding_setActionBinding m s k a

/-- C2: whenever some scope of the hierarchy (catch-all appended last)
has an exact binding for the input, Resolve returns the binding of the
earliest such scope with pending = false, even when a later scope also
has an exact binding. -/
theorem claimC2_earliest_exact_scope_wins (m : KeyBindingManager)
    (hierarchy : ViewHierarchy) (k : String) (b : Binding)
    (h : firstExactBinding m (hierarchy ++ [ViewAll]) k = some b) :
    m.binding hierarchy k = (b, false) :=
  resolveLoop_first_exact m k (hierarchy ++ [ViewAll]) b h false

/-- Witness for C2: with "ab" bound to ActionExit in scope 1 and to
ActionSuspend in the catch-all, the earliest exact scope is scope 1 and
resolution returns its binding. -/
theorem claimC2_witness :
    firstExactBinding
      ((emptyKeyBindingManager.setActionBinding 1 "ab"
        ActionType.ActionExit).setActionBinding ViewAll "ab"
        ActionType.ActionSuspend)
      ([1] ++ [ViewAll]) "ab" = some (newActionBinding ActionType.ActionExit)
    ∧ ((emptyKeyBindingManager.setActionBinding 1 "ab"
        ActionType.ActionExit).setActionBinding ViewAll "ab"
        ActionType.ActionSuspend).binding [1] "ab" =
      (newActionBinding ActionType.ActionExit, false) :=
  ⟨by decide, claimC2_earliest_exact_scope_wins _ [1] "ab" _ (by decide)⟩

/-- C3: an exact match in a later (less specific) scope, including the
catch-all, takes priority over a prefix-only pending signal in an
earlier scope: with BindAction(S1, "gg", A1) and
BindAction(CatchAll, "g", A2), Resolve([S1], "g") returns
(Action(A2), false), not (NoAction, true). -/
theorem claimC3_exact_match_beats_pending (m : KeyBindingManager)
    (s1 : ViewID) (a1 a2 : ActionType)
    (h : scopeExact m s1 "g" = none) :
    ((m.setActionBinding s1 "gg" a1).setActionBinding ViewAll "g" a2).binding
      [s1] "g" = (newActionBinding a2, false) := by
  have hb1 : (m.setActionBinding s1 "gg" a1).bindings =
      mapInsert m.bindings s1
        (trieSet ((alookup m.bindings s1).getD []) "gg"
          (newActionBinding a1)) := by
    unfold KeyBindingManager.setActionBinding
      KeyBindingManager.getOrCreateViewBindings
    dsimp only
    rw [updateHelpFormat_bindings]
  have hb2 : ((m.setActionBinding s1 "gg" a1).setActionBinding ViewAll
        "g" a2).bindings =
      mapInsert (m.setActionBinding s1 "gg" a1).bindings ViewAll
        (trieSet
          ((alookup (m.setActionBinding s1 "gg" a1).bindings ViewAll).getD [])
          "g" (newActionBinding a2)) := by
    unfold KeyBindingManager.setActionBinding
      KeyBindingManager.getOrCreateViewBindings
    dsimp only
    rw [updateHelpFormat_bindings]
  have hva : scopeExact ((m.setActionBinding s1 "gg" a1).setActionBinding
      ViewAll "g" a2) ViewAll "g" = some (newActionBinding a2) := by
    unfold scopeExact
    rw [hb2, alookup_mapInsert_self]
    exact trieGet_trieSet_self _ _ _
  by_cases hsv : s1 = ViewAll
  · subst hsv
    have hfe : firstExactBinding
        ((m.setActionBinding ViewAll "gg" a1).setActionBinding ViewAll "g" a2)
        ([ViewAll] ++ [ViewAll]) "g" = some (newActionBinding a2) := by
      simp [firstExactBinding, hva]
    exact resolveLoop_first_exact _ "g" _ _ hfe false
  · have hs1 : scopeExact ((m.setActionBinding s1 "gg" a1).setActionBinding
        ViewAll "g" a2) s1 "g" = none := by
      unfold scopeExact
      rw [hb2, alookup_mapInsert_ne _ _ _ _ hsv, hb1, alookup_mapInsert_self]
      dsimp only
      rw [trieGet_trieSet_ne _ _ _ _ (by decide : ("g" : String) ≠ "gg")]
      unfold scopeExact at h
      cases halo : alookup m.bindings s1 with
      | none => simp [trieGet]
      | some t =>
          rw [halo] at h
          simpa using h
    have hfe : firstExactBinding
        ((m.setActionBinding s1 "gg" a1).setActionBinding ViewAll "g" a2)
        ([s1] ++ [ViewAll]) "g" = some (newActionBinding a2) := by
      simp [firstExactBinding, hs1, hva]
    exact resolveLoop_first_exact _ "g" _ _ hfe false

/-- Witness for C3: from the empty manager, bind "gg" to ActionExit in
scope 1 and "g" to ActionSuspend in the catch-all; resolving "g" in
scope 1 yields the catch-all exact match with pending = false. -/
theorem claimC3_witness :
    scopeExact emptyKeyBindingManager 1 "g" = none
    ∧ ((emptyKeyBindingManager.setActionBinding 1 "gg"
        ActionType.ActionExit).setActionBinding ViewAll "g"
        ActionType.ActionSuspend).binding [1] "g" =
      (newActionBinding ActionType.ActionSuspend, false) :=
  ⟨by decide,
    claimC3_exact_match_beats_pending emptyKeyBindingManager 1
      ActionType.ActionExit ActionType.ActionSuspend (by decide)⟩

/-- C4: when no consulted scope (hierarchy plus catch-all) has an exact
binding for the input, Resolve returns the sentinel Action(None)
binding — never an absent value — with pending true exactly when some
consulted scope stores a sequence having the input as a strict prefix,
and false when no scope recognizes the input at all. -/
theorem claimC4_no_exact_gives_sentinel (m : KeyBindingManager)
    (hierarchy : ViewHierarchy) (k : String)
    (h : firstExactBinding m (hierarchy ++ [ViewAll]) k = none) :
    m.binding hierarchy k =
      (newActionBinding ActionNone,
        (hierarchy ++ [ViewAll]).any fun v => scopeStrictPending m v k) := by
  have := resolveLoop_no_exact m k (hierarchy ++ [ViewAll]) h false
  simpa [KeyBindingManager.binding] using this

/-- Witness for C4: with only "gg" bound in scope 1, resolving "g"
gives the sentinel with pending = true, and resolving "zz" on the empty
manager gives the sentinel with pending = false. -/
theorem claimC4_witness :
    firstExactBinding (emptyKeyBindingManager.setActionBinding 1 "gg"
        ActionType.ActionExit) ([1] ++ [ViewAll]) "g" = none
    ∧ (emptyKeyBindingManager.setActionBinding 1 "gg"
        ActionType.ActionExit).binding [1] "g" =
      (newActionBinding ActionNone,
        (([1] ++ [ViewAll]).any fun v =>
          scopeStrictPending (emptyKeyBindingManager.setActionBinding 1 "gg"
            ActionType.ActionExit) v "g")) :=
  ⟨by decide, claimC4_no_exact_gives_sentinel _ [1] "g" (by decide)⟩

/-- C5: after BindRemap(S, x, y), which first unbinds (S, x) and then
installs the remap, Resolve([S], x) returns (Remap(y), false). -/
theorem claimC5_remap_round_trip (m : KeyBindingManager)
    (s : ViewID) (x y : String) :
    (m.setKeystringBinding s x y).binding [s] x =
      (newKeystringBinding y, false) :=
  binding_setKeystringBinding m s x y

/-- Counterexample for C6 as stated: with A = ActionNone, the help
entry survives BindAction(1, "x", ActionNone) followed by
Unbind(1, "x"), because RemoveBinding cannot distinguish a real
ActionNone binding from the not-found sentinel and skips the prune. -/
theorem claimC6_counterexample :
    (((emptyKeyBindingManager.setActionBinding 1 "x"
        ActionNone).removeBinding 1 "x").1.keyStrings
      ActionNone 1).any (fun e => e.keystring = "x") = true := by decide

/-- C6 amended: for every action A other than the sentinel ActionNone,
after BindAction(S, K, A) followed by Unbind(S, K), the list
KeySequencesFor(A, S) no longer contains any entry whose sequence
is K. -/
theorem claimC6_unbind_prunes_help (m : KeyBindingManager)
    (v : ViewID) (k : String) (a : ActionType) (ha : ¬ a = ActionNone) :
    (((m.setActionBinding v k a).removeBinding v k).1.keyStrings a v).all
      (fun e => ¬ e.keystring = k) = true := by
  have hb := binding_setActionBinding m v k a
  unfold KeyBindingManager.removeBinding
  dsimp only
  rw [hb]
  dsimp only
  have hc : ¬ (newActionBinding a).actionType = ActionNone := ha
  rw [if_pos (Or.inl hc)]
  exact removeHelpFormatEntry_prunes _ a v k

/-- Witness for the amended C6 at ActionExit and scope 1. -/
theorem claimC6_witness :
    ¬ ActionType.ActionExit = ActionNone
    ∧ (((emptyKeyBindingManager.setActionBinding 1 "x"
        ActionType.ActionExit).removeBinding 1 "x").1.keyStrings
      ActionType.ActionExit 1).all (fun e => ¬ e.keystring = "x") = true :=
  ⟨by decide,
    claimC6_unbind_prunes_help emptyKeyBindingManager 1 "x"
      ActionType.ActionExit (by decide)⟩

/-- Counterexample for C7 as stated: in overwriteThenRebindState the
pair (1, "k") has no binding in scope 1's index and Unbind(1, "k")
returns removed = false, yet the call changes the Help Registry: the
lookup inside RemoveBinding falls through to the catch-all scope, finds
its ActionExit binding for "k", and prunes the stale ActionExit help
entry of scope 1. -/
theorem claimC7_counterexample :
    scopeExact overwriteThenRebindState 1 "k" = none
    ∧ (overwriteThenRebindState.removeBinding 1 "k").2 = false
    ∧ ¬ ((overwriteThenRebindState.removeBinding 1 "k").1.keyStrings
        ActionType.ActionExit 1 =
        overwriteThenRebindState.keyStrings ActionType.ActionExit 1) :=
  ⟨by decide, by decide, by decide⟩

/-- C7 amended: when (S, K) has no binding in scope S's index and K is
also not exactly bound in the catch-all scope, Unbind(S, K) returns
removed = false and leaves the whole state unchanged. -/
theorem claimC7_unbind_missing_noop (m : KeyBindingManager)
    (v : ViewID) (k : String)
    (h1 : scopeExact m v k = none) (h2 : scopeExact m ViewAll k = none) :
    m.removeBinding v k = (m, false) :=
  removeBinding_unbound_noop m v k h1 h2

/-- Witness for the amended C7 on the empty manager. -/
theorem claimC7_witness :
    scopeExact emptyKeyBindingManager 1 "z" = none
    ∧ scopeExact emptyKeyBindingManager ViewAll "z" = none
    ∧ emptyKeyBindingManager.removeBinding 1 "z" =
      (emptyKeyBindingManager, false) :=
  ⟨by decide, by decide,
    claimC7_unbind_missing_noop emptyKeyBindingManager 1 "z"
      (by decide) (by decide)⟩

/-- Counterexample for C8 as stated: after BindAction(1, "k",
ActionExit) then BindAction(1, "k", ActionSuspend), the help bucket of
ActionExit at scope 1 still contains "k" — the overwrite does not prune
the stale help row. -/
theorem claimC8_counterexample :
    (((emptyKeyBindingManager.setActionBinding 1 "k"
        ActionType.ActionExit).setActionBinding 1 "k"
        ActionType.ActionSuspend).keyStrings ActionType.ActionExit 1).any
      (fun e => e.keystring = "k") = true := by decide

/-- C8 amended: Help Registry entries are not pruned on binding
overwrite: for any actions A1, A2 and any key sequence outside the
reserved namespace, after BindAction(S, K, A1) then BindAction(S, K,
A2) the list KeySequencesFor(A1, S) still contains K. -/
theorem claimC8_overwrite_keeps_stale_help (m : KeyBindingManager)
    (v : ViewID) (k : String) (a1 a2 : ActionType)
    (h : strStartsWith "<grv-" k = false) :
    (((m.setActionBinding v k a1).setActionBinding v k a2).keyStrings a1
      v).any (fun e => e.keystring = k) = true := by
  by_cases ha : a2 = a1
  · subst ha
    rw [keyStrings_setActionBinding_self _ _ _ _ h]
    simp
  · rw [keyStrings_setActionBinding_ne _ _ _ _ _ _
      (fun hx => ha hx.symm), keyStrings_setActionBinding_self _ _ _ _ h]
    simp

/-- Witness for the amended C8. -/
theorem claimC8_witness :
    strStartsWith "<grv-" "k" = false
    ∧ (((emptyKeyBindingManager.setActionBinding 1 "k"
        ActionType.ActionExit).setActionBinding 1 "k"
        ActionType.ActionSuspend).keyStrings ActionType.ActionExit 1).any
      (fun e => e.keystring = "k") = true :=
  ⟨by decide,
    claimC8_overwrite_keeps_stale_help emptyKeyBindingManager 1 "k"
      ActionType.ActionExit ActionType.ActionSuspend (by decide)⟩

/-- C9: for a key sequence in the reserved internal-identifier
namespace (starting with "<grv-"), BindAction installs the binding in
the index — Resolve([S], K) finds Action(A) — while the help bucket of
(A, S) is unchanged. -/
theorem claimC9_reserved_sequences_hidden (m : KeyBindingManager)
    (s : ViewID) (k : String) (a : ActionType)
    (h : strStartsWith "<grv-" k = true) :
    (m.setActionBinding s k a).binding [s] k = (newActionBinding a, false)
    ∧ (m.setActionBinding s k a).keyStrings a s = m.keyStrings a s := by
  constructor
  · exact binding_setActionBinding m s k a
  · unfold KeyBindingManager.setActionBinding
    dsimp only
    rw [updateHelpFormat_grv _ _ _ _ h]
    rfl

/-- Witness for C9 at the reserved sequence "<grv-test>". -/
theorem claimC9_witness :
    strStartsWith "<grv-" "<grv-test>" = true
    ∧ ((emptyKeyBindingManager.setActionBinding 1 "<grv-test>"
        ActionType.ActionExit).binding [1] "<grv-test>" =
      (newActionBinding ActionType.ActionExit, false)
    ∧ (emptyKeyBindingManager.setActionBinding 1 "<grv-test>"
        ActionType.ActionExit).keyStrings ActionType.ActionExit 1 =
      emptyKeyBindingManager.keyStrings ActionType.ActionExit 1) :=
  ⟨by decide,
    claimC9_reserved_sequences_hidden emptyKeyBindingManager 1 "<grv-test>"
      ActionType.ActionExit (by decide)⟩

/-- C10: every help entry created while NewKeyBindingManager loads the
default bindings (taken as an arbitrary iteration order of the default
tables) carries isUserDefined = false, the constructor returns with the
user-defined flag set to true, and once the flag is true every entry
added by SetActionBinding or SetKeystringBinding is either an entry
that already existed or carries isUserDefined = true. -/
theorem claimC10_user_defined_flag
    (ds : List (ViewID × String × ActionType)) (m : KeyBindingManager)
    (v : ViewID) (k mk : String) (a : ActionType)
    (hm : m.userDefinedBinding = true) :
    (newKeyBindingManager ds).userDefinedBinding = true
    ∧ (helpEntries (newKeyBindingManager ds)).all
        (fun e => e.userDefinedBinding = false) = true
    ∧ newEntriesUserDefined m (m.setActionBinding v k a) = true
    ∧ newEntriesUserDefined m (m.setKeystringBinding v k mk) = true := by
  have hinv := setDefaultKeyBindings_inv ds emptyKeyBindingManager rfl
    (by intro e he; simp [helpEntries, emptyKeyBindingManager] at he)
  refine ⟨rfl, ?_, ?_, ?_⟩
  · rw [List.all_eq_true]
    intro e he
    have he2 : e ∈ helpEntries (setDefaultKeyBindings emptyKeyBindingManager
        ds) := he
    simp [hinv.2 e he2]
  · rw [newEntriesUserDefined, List.all_eq_true]
    intro e he
    rcases mem_helpEntries_setActionBinding he with h1 | h1
    · simp [List.contains, List.elem_iff, h1]
    · simp [h1, hm]
  · rw [newEntriesUserDefined, List.all_eq_true]
    intro e he
    rcases mem_helpEntries_setKeystringBinding he with h1 | h1
    · simp [List.contains, List.elem_iff, h1]
    · simp [h1, hm]

/-- Witness for C10 with the empty default table and a fresh manager. -/
theorem claimC10_witness :
    (newKeyBindingManager []).userDefinedBinding = true
    ∧ ((newKeyBindingManager []).userDefinedBinding = true
    ∧ (helpEntries (newKeyBindingManager [])).all
        (fun e => e.userDefinedBinding = false) = true
    ∧ newEntriesUserDefined (newKeyBindingManager [])
        ((newKeyBindingManager []).setActionBinding 1 "x"
          ActionType.ActionExit) = true
    ∧ newEntriesUserDefined (newKeyBindingManager [])
        ((newKeyBindingManager []).setKeystringBinding 1 "x" "y") = true) :=
  ⟨by decide,
    claimC10_user_defined_flag [] (newKeyBindingManager []) 1 "x" "y"
      ActionType.ActionExit (by decide)⟩

end Grv
